import Mathlib

/-!
Verification development for the `aiweb3news` service: an RSS
poll → dedup → classify → persist → notify pipeline.

Strings are modelled as lists of Unicode code points (`Str`), matching
Go's `[]rune` view.  Pure helpers (`pickGUID`, `trimText`,
`cleanupResponse`, feed filtering) are translated directly from the Go
source.  The orchestration loop `pollOnce` is embedded as a
trace-producing state machine over an explicit ledger, with the outcome
of each external call (existence query, classifier, upsert) supplied by
a per-item environment.
-/

namespace AiWeb3News

/-- Strings as lists of code points (Go `[]rune`). -/
abbrev Str := List Char

/-! ## Go `strings` helpers used by the source -/

/-- Whitespace predicate of Go's `unicode.IsSpace` (Latin-1 range plus
the Unicode space code points). -/
def goIsSpace (c : Char) : Bool :=
  c = '\t' || c = '\n' || c.val = 0x0b || c.val = 0x0c || c = '\r' || c = ' ' ||
  c.val = 0x85 || c.val = 0xa0 || c.val = 0x1680 ||
  (0x2000 ≤ c.val && c.val ≤ 0x200a) ||
  c.val = 0x2028 || c.val = 0x2029 || c.val = 0x202f || c.val = 0x205f ||
  c.val = 0x3000

/-- Go `strings.TrimSpace`. -/
def goTrimSpace (s : Str) : Str :=
  ((s.dropWhile goIsSpace).reverse.dropWhile goIsSpace).reverse

/-- Go `strings.TrimPrefix`. -/
def goTrimPre (pat s : Str) : Str :=
  if pat.isPrefixOf s then s.drop pat.length else s

/-- Go `strings.TrimSuffix`. -/
def goTrimSuf (pat s : Str) : Str :=
  if pat.isSuffixOf s then s.take (s.length - pat.length) else s

/-- Go `strings.Contains s pat`: `pat` occurs as a contiguous substring. -/
def containsSubstr : Str → Str → Bool
  | [], pat => pat.isEmpty
  | a :: t, pat => pat.isPrefixOf (a :: t) || containsSubstr t pat

/-- Replacement loop with explicit fuel; one unit of fuel is spent per
step, and a match consumes at least one character, so fuel equal to the
input length always suffices. -/
def replaceAllAux (pat rep : Str) : Nat → Str → Str
  | 0, s => s
  | Nat.succ fuel, s =>
    match s with
    | [] => []
    | a :: t =>
      if !pat.isEmpty && pat.isPrefixOf s then
        rep ++ replaceAllAux pat rep fuel (s.drop pat.length)
      else
        a :: replaceAllAux pat rep fuel t

/-- Go `strings.ReplaceAll` for a non-empty pattern (the source only
uses it with a fixed non-empty pattern): replaces non-overlapping
occurrences left to right. -/
def listReplaceAll (pat rep s : Str) : Str :=
  replaceAllAux pat rep s.length s

/-! ## RSS layer (`internal/rss/fetcher.go`) -/

/-- A raw feed entry as returned by the external feed parser. -/
structure RawEntry where
  guid : Str
  title : Str
  link : Str
  publishedParsed : Option Int
  description : Str
deriving DecidableEq

/-- A normalized RSS item (`rss.Item`). -/
structure Item where
  guid : Str
  title : Str
  link : Str
  publishedAt : Int
  description : Str
deriving DecidableEq

/-- `pickGUID`: source identifier, falling back to link, then title. -/
def pickGUID (entry : RawEntry) : Str :=
  if entry.guid ≠ [] then entry.guid
  else if entry.link ≠ [] then entry.link
  else entry.title

/-- The newsletter marker the fetcher filters on. -/
def newsletterPat : Str := ("/newsletter/").data

/-- `Fetcher.Fetch`, success path: normalize entries, keeping only
newsletter items (marker in the chosen GUID or in the raw link).
`now` is the wall-clock fallback for a missing published time. -/
def fetchItems (now : Int) (entries : List RawEntry) : List Item :=
  entries.filterMap fun entry =>
    let pubTime := match entry.publishedParsed with
      | some t => t
      | none => now
    let guid := pickGUID entry
    if !containsSubstr guid newsletterPat && !containsSubstr entry.link newsletterPat then
      none
    else
      some { guid := guid, title := entry.title, link := entry.link,
             publishedAt := pubTime, description := entry.description }

/-! ## Analysis layer (`internal/analysis/openai.go`) -/

/-- The AI verdict about a news item (`analysis.Result`). -/
structure Result where
  relevant : Bool
  category : Str
  reason : Str
  tags : List Str
deriving DecidableEq

/-- `trimText`: bound a string to `max` code points, trimming
surrounding space first when over budget. -/
def trimText (s : Str) (max : Nat) : Str :=
  if s.length ≤ max then s
  else
    let runes := goTrimSpace s
    if runes.length ≤ max then runes
    else runes.take max

/-- The summary actually placed in the classifier prompt by `Evaluate`. -/
def promptSummary (summary : Str) : Str := trimText summary 800

/-- `cleanupResponse`: strip code fences and coerce a literal
`"category": null` to an empty string. -/
def cleanupResponse (s : Str) : Str :=
  let c := goTrimSpace s
  let c :=
    if (("```").data).isPrefixOf c then
      let c := match c.findIdx? (· = '\n') with
        | some idx => c.drop (idx + 1)
        | none => c
      let c := goTrimPre (("```json").data) c
      let c := goTrimPre (("```").data) c
      let c := goTrimSuf (("```").data) c
      goTrimSpace c
    else c
  listReplaceAll (("\"category\": null").data) (("\"category\": \"\"").data) c

/-! ## JSON decoding of the model response

`Evaluate` hands `cleanupResponse`'s output to the standard-library
JSON decoder targeting `Result`.  The decoder is modelled for the JSON
subset that contract exercises: objects, arrays, strings with the usual
escapes (surrogate pairs are not paired), booleans, `null`, and raw
number tokens.  Unknown object keys are ignored, `null` leaves a field
at its zero value, later duplicate keys win, and a type mismatch on a
known field is an error, as in `encoding/json`. -/

/-- JSON values (numbers kept as raw tokens: `Result` has no numeric
field, so a number in a known field is a type error anyway). -/
inductive Json where
  | null
  | bool (b : Bool)
  | num (raw : Str)
  | str (s : Str)
  | arr (elems : List Json)
  | obj (members : List (Str × Json))

/-- JSON insignificant whitespace. -/
def jsonWs (c : Char) : Bool :=
  c = ' ' || c = '\t' || c = '\n' || c = '\r'

/-- Skip insignificant whitespace. -/
def skipWs (s : Str) : Str := s.dropWhile jsonWs

/-- Value of one hex digit. -/
def hexVal (c : Char) : Option Nat :=
  if '0' ≤ c && c ≤ '9' then some (c.toNat - ('0').toNat)
  else if 'a' ≤ c && c ≤ 'f' then some (c.toNat - ('a').toNat + 10)
  else if 'A' ≤ c && c ≤ 'F' then some (c.toNat - ('A').toNat + 10)
  else none

/-- Single-character JSON escapes. -/
def escChar (c : Char) : Option Char :=
  if c = '"' then some '"'
  else if c = '\\' then some '\\'
  else if c = '/' then some '/'
  else if c = 'b' then some (Char.ofNat 8)
  else if c = 'f' then some (Char.ofNat 12)
  else if c = 'n' then some '\n'
  else if c = 'r' then some '\r'
  else if c = 't' then some '\t'
  else none

/-- Parse a string body (the opening quote already consumed), returning
the decoded string and the rest of the input. -/
def parseStringBody : Nat → Str → Option (Str × Str)
  | 0, _ => none
  | _, [] => none
  | Nat.succ fuel, c :: rest =>
    if c = '"' then some ([], rest)
    else if c = '\\' then
      match rest with
      | [] => none
      | e :: rest2 =>
        if e = 'u' then
          match rest2 with
          | h1 :: h2 :: h3 :: h4 :: rest3 =>
            match hexVal h1, hexVal h2, hexVal h3, hexVal h4 with
            | some a, some b, some c3, some d =>
              (parseStringBody fuel rest3).map fun p =>
                (Char.ofNat (((a * 16 + b) * 16 + c3) * 16 + d) :: p.1, p.2)
            | _, _, _, _ => none
          | _ => none
        else
          match escChar e with
          | some ec => (parseStringBody fuel rest2).map fun p => (ec :: p.1, p.2)
          | none => none
    else (parseStringBody fuel rest).map fun p => (c :: p.1, p.2)

/-- Parse a JSON string where `s` starts right after the quote. -/
def parseStr (s : Str) : Option (Str × Str) :=
  parseStringBody (s.length + 1) s

/-- Characters a raw number token may contain. -/
def numChar (c : Char) : Bool :=
  c.isDigit || c = '-' || c = '+' || c = '.' || c = 'e' || c = 'E'

/-- The object/array delimiters, written via code points. -/
def lbrace : Char := Char.ofNat 0x7b

/-- Closing object delimiter. -/
def rbrace : Char := Char.ofNat 0x7d

mutual

/-- Parse one JSON value, returning it and the remaining input. -/
def parseValue : Nat → Str → Option (Json × Str)
  | 0, _ => none
  | Nat.succ fuel, s =>
    match skipWs s with
    | [] => none
    | c :: rest =>
      if c = '"' then
        (parseStr rest).map fun p => (Json.str p.1, p.2)
      else if c = lbrace then
        match skipWs rest with
        | c2 :: rem =>
          if c2 = rbrace then some (Json.obj [], rem)
          else (parseMembers fuel (c2 :: rem)).map fun p => (Json.obj p.1, p.2)
        | [] => none
      else if c = '[' then
        match skipWs rest with
        | ']' :: rem => some (Json.arr [], rem)
        | s2 => (parseElems fuel s2).map fun p => (Json.arr p.1, p.2)
      else if c = 't' then
        if (("rue").data).isPrefixOf rest then some (Json.bool true, rest.drop 3)
        else none
      else if c = 'f' then
        if (("alse").data).isPrefixOf rest then some (Json.bool false, rest.drop 4)
        else none
      else if c = 'n' then
        if (("ull").data).isPrefixOf rest then some (Json.null, rest.drop 3)
        else none
      else if c = '-' || c.isDigit then
        some (Json.num ((c :: rest).takeWhile numChar), (c :: rest).dropWhile numChar)
      else none

/-- Parse `"key": value (, "key": value)*` up to the closing brace. -/
def parseMembers : Nat → Str → Option (List (Str × Json) × Str)
  | 0, _ => none
  | Nat.succ fuel, s =>
    match skipWs s with
    | '"' :: rest =>
      match parseStr rest with
      | none => none
      | some (key, rem) =>
        match skipWs rem with
        | ':' :: rem2 =>
          match parseValue fuel rem2 with
          | none => none
          | some (v, rem3) =>
            match skipWs rem3 with
            | c4 :: rem4 =>
              if c4 = ',' then
                (parseMembers fuel rem4).map fun p => ((key, v) :: p.1, p.2)
              else if c4 = rbrace then some ([(key, v)], rem4)
              else none
            | [] => none
        | _ => none
    | _ => none

/-- Parse `value (, value)*` up to the closing bracket. -/
def parseElems : Nat → Str → Option (List Json × Str)
  | 0, _ => none
  | Nat.succ fuel, s =>
    match parseValue fuel s with
    | none => none
    | some (v, rem) =>
      match skipWs rem with
      | ',' :: rem2 => (parseElems fuel rem2).map fun p => (v :: p.1, p.2)
      | ']' :: rem2 => some ([v], rem2)
      | _ => none

end

/-- The zero value of `Result`. -/
def emptyResult : Result := { relevant := false, category := [], reason := [], tags := [] }

/-- ASCII-case-insensitive key match against a lowercase field tag. -/
def keyIs (k tag : Str) : Bool := (k.map Char.toLower) == tag

/-- A JSON array all of whose elements are strings. -/
def allStrings : List Json → Option (List Str)
  | [] => some []
  | Json.str s :: rest => (allStrings rest).map fun l => s :: l
  | _ => none

/-- Apply one object member to the partially decoded `Result`. -/
def decodeField (acc : Result) (k : Str) (v : Json) : Option Result :=
  if keyIs k (("relevant").data) then
    match v with
    | Json.bool b => some { acc with relevant := b }
    | Json.null => some acc
    | _ => none
  else if keyIs k (("category").data) then
    match v with
    | Json.str s => some { acc with category := s }
    | Json.null => some acc
    | _ => none
  else if keyIs k (("reason").data) then
    match v with
    | Json.str s => some { acc with reason := s }
    | Json.null => some acc
    | _ => none
  else if keyIs k (("tags").data) then
    match v with
    | Json.arr xs => (allStrings xs).map fun l => { acc with tags := l }
    | Json.null => some acc
    | _ => none
  else some acc

/-- Fold the object members in order (later duplicates win). -/
def decodeFields (acc : Result) : List (Str × Json) → Option Result
  | [] => some acc
  | (k, v) :: rest =>
    match decodeField acc k v with
    | some acc2 => decodeFields acc2 rest
    | none => none

/-- Decode a `Result` from a JSON value: must be an object (or `null`,
which leaves the zero value). -/
def decodeResult : Json → Option Result
  | Json.obj kvs => decodeFields emptyResult kvs
  | Json.null => some emptyResult
  | _ => none

/-- `json.Unmarshal` into `Result`: one value, nothing but whitespace
after it. -/
def unmarshalResult (s : Str) : Option Result :=
  match parseValue (s.length + 1) s with
  | some (j, rem) => if (skipWs rem).isEmpty then decodeResult j else none
  | none => none

/-- The normalization-then-parse step of `Evaluate` applied to the raw
model output. -/
def evaluateParse (content : Str) : Option Result :=
  unmarshalResult (cleanupResponse content)

/-! ## Storage layer (`internal/storage/mysql.go`)

The MySQL table `news_analysis` is modelled as a list of records with a
monotonically increasing `AUTO_INCREMENT` id.  `created_at` is the
first-seen timestamp; `SaveAnalysis` performs
`INSERT ... ON DUPLICATE KEY UPDATE`, which replaces the mutable fields
and refreshes `updated_at` but preserves `id` and `created_at`. -/

/-- One row of `news_analysis`. -/
structure StoredRecord where
  id : Nat
  guid : Str
  title : Str
  link : Str
  publishedAt : Int
  summary : Str
  relevant : Bool
  category : Str
  reason : Str
  tags : List Str
  createdAt : Nat
  updatedAt : Nat
deriving DecidableEq

/-- The persistent store: rows plus the next `AUTO_INCREMENT` id. -/
structure Ledger where
  records : List StoredRecord
  nextId : Nat
deriving DecidableEq

/-- `Store.Exists`, success path: whether a guid is present. -/
def existsGuid (led : Ledger) (g : Str) : Bool :=
  led.records.any fun r => r.guid == g

/-- Row lookup by guid (guids are `UNIQUE`). -/
def findRecord (led : Ledger) (g : Str) : Option StoredRecord :=
  led.records.find? fun r => r.guid == g

/-- The row written for a newly inserted item. -/
def newRecord (id : Nat) (now : Nat) (item : Item) (res : Result) : StoredRecord :=
  { id := id, guid := item.guid, title := item.title, link := item.link,
    publishedAt := item.publishedAt, summary := item.description,
    relevant := res.relevant, category := res.category, reason := res.reason,
    tags := res.tags, createdAt := now, updatedAt := now }

/-- `ON DUPLICATE KEY UPDATE`: replace the mutable fields, keep `id`,
`guid` and `created_at`, refresh `updated_at`. -/
def updateRecord (r : StoredRecord) (now : Nat) (item : Item) (res : Result) : StoredRecord :=
  { r with
    title := item.title
    link := item.link
    publishedAt := item.publishedAt
    summary := item.description
    relevant := res.relevant
    category := res.category
    reason := res.reason
    tags := res.tags
    updatedAt := now }

/-- `Store.SaveAnalysis`, success path. -/
def saveAnalysis (led : Ledger) (now : Nat) (item : Item) (res : Result) : Ledger :=
  if existsGuid led item.guid then
    { records := led.records.map fun r =>
        if r.guid == item.guid then updateRecord r now item res else r,
      nextId := led.nextId }
  else
    { records := led.records ++ [newRecord led.nextId now item res],
      nextId := led.nextId + 1 }

/-- `published_at` descending, ties by `id` descending: the `ORDER BY`
of `ListRelevant`.  `a` may come before `b` iff `b`'s key is not
larger. -/
def recBefore (a b : StoredRecord) : Prop :=
  b.publishedAt < a.publishedAt ∨ (b.publishedAt = a.publishedAt ∧ b.id ≤ a.id)

instance (a b : StoredRecord) : Decidable (recBefore a b) := by
  unfold recBefore; infer_instance

/-- Sorted insertion realizing the SQL `ORDER BY`. -/
def insertRec (a : StoredRecord) : List StoredRecord → List StoredRecord
  | [] => [a]
  | b :: bs => if recBefore a b then a :: b :: bs else b :: insertRec a bs

/-- Sort rows by `published_at DESC, id DESC`. -/
def sortRecs : List StoredRecord → List StoredRecord
  | [] => []
  | a :: rest => insertRec a (sortRecs rest)

/-- `Store.ListRelevant`, success path:
`WHERE relevant = 1 ORDER BY published_at DESC, id DESC LIMIT ?`. -/
def listRelevant (led : Ledger) (limit : Nat) : List StoredRecord :=
  (sortRecs (led.records.filter fun r => r.relevant)).take limit

/-- The body of `GET /items`: a count plus the listed rows
(`itemsHandler` delegates to `ListRelevant` with `cfg.MaxItems`). -/
def itemsResponse (led : Ledger) (maxItems : Nat) : Nat × List StoredRecord :=
  ((listRelevant led maxItems).length, listRelevant led maxItems)

/-! ## The polling pipeline (`service.go`, `pollOnce`)

External outcomes are supplied per item: whether the existence query
errors, the classifier's verdict (or failure), and whether the upsert
errors.  Processing emits a trace of the calls made. -/

/-- Outcomes of the external calls for one item. -/
structure ItemEnv where
  existsErr : Bool
  evalRes : Option Result
  saveErr : Bool
deriving DecidableEq

/-- Observable calls made by the pipeline. -/
inductive Event where
  | existsCheck (guid : Str)
  | evaluate (guid : Str)
  | upsertOk (guid : Str) (relevant : Bool)
  | upsertFail (guid : Str)
  | notify (guid : Str)
deriving DecidableEq

/-- The loop body of `pollOnce` for one item: existence check (skip on
error or hit), classify (skip on error), persist (skip on error),
notify when relevant. -/
def processItem (led : Ledger) (now : Nat) (item : Item) (env : ItemEnv) :
    Ledger × List Event :=
  if env.existsErr then
    (led, [Event.existsCheck item.guid])
  else if existsGuid led item.guid then
    (led, [Event.existsCheck item.guid])
  else
    match env.evalRes with
    | none => (led, [Event.existsCheck item.guid, Event.evaluate item.guid])
    | some res =>
      if env.saveErr then
        (led, [Event.existsCheck item.guid, Event.evaluate item.guid,
               Event.upsertFail item.guid])
      else
        let led2 := saveAnalysis led now item res
        if res.relevant then
          (led2, [Event.existsCheck item.guid, Event.evaluate item.guid,
                  Event.upsertOk item.guid res.relevant, Event.notify item.guid])
        else
          (led2, [Event.existsCheck item.guid, Event.evaluate item.guid,
                  Event.upsertOk item.guid res.relevant])

/-- The `for _, item := range items` loop of `pollOnce`. -/
def processItems : Ledger → Nat → List (Item × ItemEnv) → Ledger × List Event
  | led, _, [] => (led, [])
  | led, now, (item, env) :: rest =>
    let r1 := processItem led now item env
    let r2 := processItems r1.1 now rest
    (r2.1, r1.2 ++ r2.2)

/-- One cycle: `none` models an aggregate fetch failure (log and
return), `some batch` the fetched items with their call outcomes. -/
def pollOnce (led : Ledger) (now : Nat) (fetch : Option (List (Item × ItemEnv))) :
    Ledger × List Event :=
  match fetch with
  | none => (led, [])
  | some batch => processItems led now batch

/-- Any number of scheduled cycles, each with its own clock and fetch
outcome. -/
def runCycles : Ledger → List (Nat × Option (List (Item × ItemEnv))) →
    Ledger × List Event
  | led, [] => (led, [])
  | led, cyc :: rest =>
    let r1 := pollOnce led cyc.1 cyc.2
    let r2 := runCycles r1.1 rest
    (r2.1, r1.2 ++ r2.2)

/-- An item whose existence check, classification, or persistence call
would fail this cycle. -/
def itemFailed (env : ItemEnv) : Prop :=
  env.existsErr = true ∨ env.evalRes = none ∨ env.saveErr = true

instance (env : ItemEnv) : Decidable (itemFailed env) := by
  unfold itemFailed; infer_instance

/-- The guid an event refers to. -/
def eventGuid : Event → Str
  | Event.existsCheck g => g
  | Event.evaluate g => g
  | Event.upsertOk g _ => g
  | Event.upsertFail g => g
  | Event.notify g => g

/-! ## Concrete fixtures used by the witnesses -/

/-- A relevant verdict. -/
def wResRelevant : Result :=
  { relevant := true, category := ("policy").data, reason := ("r").data,
    tags := [("X").data] }

/-- An irrelevant verdict. -/
def wResIrrelevant : Result :=
  { relevant := false, category := [], reason := ("n").data, tags := [] }

/-- A feed item with identifier `a`. -/
def wItemA : Item :=
  { guid := ("a").data, title := ("ta").data, link := ("la").data,
    publishedAt := 10, description := ("da").data }

/-- A feed item with identifier `b`. -/
def wItemB : Item :=
  { guid := ("b").data, title := ("tb").data, link := ("lb").data,
    publishedAt := 20, description := ("db").data }

/-- A persisted row for identifier `a`, first seen at time 5. -/
def wRecordA : StoredRecord :=
  { id := 0, guid := ("a").data, title := ("ta").data, link := ("la").data,
    publishedAt := 10, summary := ("da").data, relevant := true,
    category := ("policy").data, reason := ("r").data, tags := [],
    createdAt := 5, updatedAt := 5 }

/-- A ledger already holding identifier `a`. -/
def wLedger : Ledger := { records := [wRecordA], nextId := 1 }

/-- All external calls succeed; the verdict is relevant. -/
def wEnvOk : ItemEnv := { existsErr := false, evalRes := some wResRelevant, saveErr := false }

/-- All external calls succeed; the verdict is irrelevant. -/
def wEnvIrrelevant : ItemEnv :=
  { existsErr := false, evalRes := some wResIrrelevant, saveErr := false }

/-- Classification fails. -/
def wEnvEvalFail : ItemEnv := { existsErr := false, evalRes := none, saveErr := false }

/-- Persistence fails. -/
def wEnvSaveFail : ItemEnv :=
  { existsErr := false, evalRes := some wResRelevant, saveErr := true }

/-- A one-item batch re-fetching identifier `a`. -/
def wBatch : List (Item × ItemEnv) := [(wItemA, wEnvOk)]

/-- A fenced model response whose category is a JSON `null`. -/
def fencedNullResponse : Str :=
  ("```json\n\x7b\"relevant\": true, \"category\": null, \"reason\": \"policy\", \"tags\": [\"X\"]\x7d\n```").data

/-- The same response after fence stripping and null coercion. -/
def cleanedNullResponse : Str :=
  ("\x7b\"relevant\": true, \"category\": \"\", \"reason\": \"policy\", \"tags\": [\"X\"]\x7d").data

/-- A second relevant row, published later and inserted later. -/
def wRecordB : StoredRecord :=
  { id := 1, guid := ("b").data, title := ("tb").data, link := ("lb").data,
    publishedAt := 20, summary := ("db").data, relevant := true,
    category := ("c").data, reason := ("r").data, tags := [],
    createdAt := 6, updatedAt := 6 }

/-- An irrelevant row. -/
def wRecordC : StoredRecord :=
  { id := 2, guid := ("c").data, title := ("tc").data, link := ("lc").data,
    publishedAt := 30, summary := ("dc").data, relevant := false,
    category := [], reason := ("n").data, tags := [],
    createdAt := 7, updatedAt := 7 }

/-- A ledger with two relevant rows and one irrelevant row. -/
def wLedger2 : Ledger := { records := [wRecordA, wRecordB, wRecordC], nextId := 3 }

/-- A raw entry with all identifying fields empty. -/
def wEntryEmpty : RawEntry :=
  { guid := [], title := [], link := [], publishedParsed := none, description := [] }

/-- A raw entry with no source guid but a link. -/
def wEntryLinkOnly : RawEntry :=
  { guid := [], title := ("t1").data, link := ("l1").data,
    publishedParsed := some 3, description := ("d1").data }

/-- A newsletter entry. -/
def wEntryNews : RawEntry :=
  { guid := ("x/newsletter/1").data, title := ("t2").data, link := ("l2").data,
    publishedParsed := some 4, description := ("d2").data }

/-- A non-newsletter entry. -/
def wEntryOther : RawEntry :=
  { guid := ("x/article/1").data, title := ("t3").data, link := ("l3").data,
    publishedParsed := some 5, description := ("d3").data }

/-- The normalized item produced for `wEntryNews`. -/
def wItemNews : Item :=
  { guid := ("x/newsletter/1").data, title := ("t2").data, link := ("l2").data,
    publishedAt := 4, description := ("d2").data }

/-! ## Supporting lemmas -/

lemma updateRecord_guid (r : StoredRecord) (now : Nat) (item : Item) (res : Result) :
    (updateRecord r now item res).guid = r.guid := rfl

lemma saveUpdate_guid (r : StoredRecord) (now : Nat) (item : Item) (res : Result) :
    ((if r.guid == item.guid then updateRecord r now item res else r)).guid = r.guid := by
  split <;> rfl

lemma existsGuid_iff (led : Ledger) (g : Str) :
    existsGuid led g = true ↔ ∃ r ∈ led.records, r.guid = g := by
  simp [existsGuid, List.any_eq_true]

lemma existsGuid_saveAnalysis_of (led : Ledger) (now : Nat) (item : Item) (res : Result)
    (g : Str) (h : existsGuid led g = true) :
    existsGuid (saveAnalysis led now item res) g = true := by
  rcases (existsGuid_iff led g).1 h with ⟨r, hr, hg⟩
  unfold saveAnalysis
  by_cases hx : existsGuid led item.guid = true
  · simp only [hx, if_pos]
    refine (existsGuid_iff _ g).2 ⟨_, List.mem_map_of_mem _ hr, ?_⟩
    rw [saveUpdate_guid]; exact hg
  · simp only [hx, if_neg, Bool.not_eq_true]
    exact (existsGuid_iff _ g).2 ⟨r, by simp [List.mem_append, hr], hg⟩

lemma find?_map_update (l : List StoredRecord) (now : Nat) (item : Item) (res : Result)
    (g : Str) (hne : item.guid ≠ g) :
    ((l.map fun r => if r.guid == item.guid then updateRecord r now item res else r).find?
      fun r => r.guid == g) = l.find? fun r => r.guid == g := by
  induction l with
  | nil => rfl
  | cons r t ih =>
    by_cases hr : r.guid = g
    · have hfix : (if r.guid == item.guid then updateRecord r now item res else r) = r := by
        have : (r.guid == item.guid) = false := by
          simp only [beq_eq_false_iff_ne, ne_eq]
          intro hcontra
          exact hne (hcontra ▸ hr ▸ rfl)
        simp [this]
      have hb : (r.guid == g) = true := by simp [hr]
      simp only [List.map_cons, hfix, List.find?_cons, hb]
    · have hb : (r.guid == g) = false := by simp [hr]
      have hb2 : (((if r.guid == item.guid then updateRecord r now item res else r).guid
          == g)) = false := by
        rw [saveUpdate_guid]; exact hb
      simp only [List.map_cons, List.find?_cons, hb, hb2, ih]

lemma findRecord_saveAnalysis_ne (led : Ledger) (now : Nat) (item : Item) (res : Result)
    (g : Str) (hne : item.guid ≠ g) :
    findRecord (saveAnalysis led now item res) g = findRecord led g := by
  unfold saveAnalysis findRecord
  by_cases hx : existsGuid led item.guid = true
  · simp only [hx, if_pos]
    exact find?_map_update led.records now item res g hne
  · simp only [hx, if_neg, Bool.not_eq_true]
    rw [List.find?_append]
    have : ((newRecord led.nextId now item res).guid == g) = false := by
      simp only [beq_eq_false_iff_ne, ne_eq, newRecord]
      exact hne
    simp [List.find?, this]

/-- Every event emitted while processing one item carries that item's
guid. -/
lemma processItem_eventGuid (led : Ledger) (now : Nat) (item : Item) (env : ItemEnv) :
    ∀ e ∈ (processItem led now item env).2, eventGuid e = item.guid := by
  unfold processItem
  split
  · intro e he; simp only [List.mem_singleton] at he; subst he; rfl
  · split
    · intro e he; simp only [List.mem_singleton] at he; subst he; rfl
    · split
      · intro e he
        rcases List.mem_cons.1 he with h1 | h1
        · subst h1; rfl
        · simp only [List.mem_singleton] at h1; subst h1; rfl
      · split
        · intro e he
          rcases List.mem_cons.1 he with h1 | h1; · subst h1; rfl
          rcases List.mem_cons.1 h1 with h2 | h2; · subst h2; rfl
          simp only [List.mem_singleton] at h2; subst h2; rfl
        · split
          · intro e he
            rcases List.mem_cons.1 he with h1 | h1; · subst h1; rfl
            rcases List.mem_cons.1 h1 with h2 | h2; · subst h2; rfl
            rcases List.mem_cons.1 h2 with h3 | h3; · subst h3; rfl
            simp only [List.mem_singleton] at h3; subst h3; rfl
          · intro e he
            rcases List.mem_cons.1 he with h1 | h1; · subst h1; rfl
            rcases List.mem_cons.1 h1 with h2 | h2; · subst h2; rfl
            simp only [List.mem_singleton] at h2; subst h2; rfl

/-- An item whose guid is already present is only existence-checked. -/
lemma processItem_of_present (led : Ledger) (now : Nat) (item : Item) (env : ItemEnv)
    (h : existsGuid led item.guid = true) :
    processItem led now item env = (led, [Event.existsCheck item.guid]) := by
  unfold processItem
  by_cases e1 : env.existsErr = true <;> simp [e1, h]

/-- A skipped or failed item leaves the ledger unchanged. -/
lemma processItem_fst_of_failed (led : Ledger) (now : Nat) (item : Item) (env : ItemEnv)
    (h : itemFailed env) :
    (processItem led now item env).1 = led := by
  unfold processItem
  rcases h with h1 | h1 | h1
  · simp [h1]
  · by_cases e1 : env.existsErr = true <;>
      by_cases e2 : existsGuid led item.guid = true <;> simp [e1, e2, h1]
  · by_cases e1 : env.existsErr = true
    · simp [e1]
    · by_cases e2 : existsGuid led item.guid = true
      · simp [e1, e2]
      · cases hres : env.evalRes <;> simp [e1, e2, hres, h1]

/-- The ledger after one item: unchanged, or the saved verdict of a
fresh guid. -/
lemma processItem_fst_cases (led : Ledger) (now : Nat) (item : Item) (env : ItemEnv) :
    (processItem led now item env).1 = led ∨
    ∃ res, env.evalRes = some res ∧
      (processItem led now item env).1 = saveAnalysis led now item res := by
  unfold processItem
  by_cases e1 : env.existsErr = true
  · simp [e1]
  by_cases e2 : existsGuid led item.guid = true
  · simp [e1, e2]
  cases hres : env.evalRes with
  | none => simp [e1, e2, hres]
  | some res =>
    by_cases e3 : env.saveErr = true
    · simp [e1, e2, hres, e3]
    · by_cases e4 : res.relevant = true <;>
        simp [e1, e2, hres, e3, e4]

lemma existsGuid_processItem_of (led : Ledger) (now : Nat) (item : Item) (env : ItemEnv)
    (g : Str) (h : existsGuid led g = true) :
    existsGuid (processItem led now item env).1 g = true := by
  rcases processItem_fst_cases led now item env with hc | ⟨res, _, hc⟩ <;> rw [hc]
  · exact h
  · exact existsGuid_saveAnalysis_of led now item res g h

lemma findRecord_processItem_ne (led : Ledger) (now : Nat) (item : Item) (env : ItemEnv)
    (g : Str) (hne : item.guid ≠ g) :
    findRecord (processItem led now item env).1 g = findRecord led g := by
  rcases processItem_fst_cases led now item env with hc | ⟨res, _, hc⟩
  · rw [hc]
  · rw [hc]
    exact findRecord_saveAnalysis_ne led now item res g hne

lemma processItem_skips_existing (led : Ledger) (now : Nat) (item : Item) (env : ItemEnv)
    (g : Str) (h : existsGuid led g = true) :
    findRecord (processItem led now item env).1 g = findRecord led g ∧
    Event.evaluate g ∉ (processItem led now item env).2 ∧
    Event.notify g ∉ (processItem led now item env).2 := by
  by_cases hip : item.guid = g
  · subst hip
    rw [processItem_of_present led now item env h]
    refine ⟨rfl, by simp, by simp⟩
  · refine ⟨findRecord_processItem_ne led now item env g hip, ?_, ?_⟩
    · intro hmem
      have hg := processItem_eventGuid led now item env _ hmem
      simp only [eventGuid] at hg
      exact hip hg.symm
    · intro hmem
      have hg := processItem_eventGuid led now item env _ hmem
      simp only [eventGuid] at hg
      exact hip hg.symm

lemma processItems_skips_existing (led : Ledger) (now : Nat)
    (batch : List (Item × ItemEnv)) (g : Str) (h : existsGuid led g = true) :
    existsGuid (processItems led now batch).1 g = true ∧
    findRecord (processItems led now batch).1 g = findRecord led g ∧
    Event.evaluate g ∉ (processItems led now batch).2 ∧
    Event.notify g ∉ (processItems led now batch).2 := by
  induction batch generalizing led with
  | nil => simpa [processItems] using h
  | cons p rest ih =>
    obtain ⟨item, env⟩ := p
    have h1 := existsGuid_processItem_of led now item env g h
    have h2 := processItem_skips_existing led now item env g h
    have h3 := ih (processItem led now item env).1 h1
    refine ⟨h3.1, ?_, ?_, ?_⟩
    · show findRecord (processItems (processItem led now item env).1 now rest).1 g =
        findRecord led g
      rw [h3.2.1, h2.1]
    · show Event.evaluate g ∉
        (processItem led now item env).2 ++
          (processItems (processItem led now item env).1 now rest).2
      rw [List.mem_append]
      rintro (hm | hm)
      · exact h2.2.1 hm
      · exact h3.2.2.1 hm
    · show Event.notify g ∉
        (processItem led now item env).2 ++
          (processItems (processItem led now item env).1 now rest).2
      rw [List.mem_append]
      rintro (hm | hm)
      · exact h2.2.2 hm
      · exact h3.2.2.2 hm

/-! ## Claim theorems -/

/-- C1: an identifier already in the Ledger when a cycle starts is never
classified or notified during that cycle, and its persisted record —
first-seen timestamp included — is untouched. -/
theorem cycle_skips_existing (led : Ledger) (now : Nat)
    (fetch : Option (List (Item × ItemEnv))) (g : Str)
    (h : existsGuid led g = true) :
    Event.evaluate g ∉ (pollOnce led now fetch).2 ∧
    Event.notify g ∉ (pollOnce led now fetch).2 ∧
    findRecord (pollOnce led now fetch).1 g = findRecord led g := by
  cases fetch with
  | none => exact ⟨by simp [pollOnce], by simp [pollOnce], rfl⟩
  | some batch =>
    have hs := processItems_skips_existing led now batch g h
    exact ⟨hs.2.2.1, hs.2.2.2, hs.2.1⟩

/-- C1 witness. -/
theorem cycle_skips_existing_witness :
    existsGuid wLedger (("a").data) = true ∧
    (Event.evaluate (("a").data) ∉ (pollOnce wLedger 7 (some wBatch)).2 ∧
     Event.notify (("a").data) ∉ (pollOnce wLedger 7 (some wBatch)).2 ∧
     findRecord (pollOnce wLedger 7 (some wBatch)).1 (("a").data) =
       findRecord wLedger (("a").data)) :=
  ⟨by decide, cycle_skips_existing wLedger 7 (some wBatch) (("a").data) (by decide)⟩

lemma processItem_count_notify_le (led : Ledger) (now : Nat) (item : Item) (env : ItemEnv)
    (g : Str) :
    ((processItem led now item env).2.count (Event.notify g)) ≤
      ((processItem led now item env).2.count (Event.upsertOk g true)) := by
  unfold processItem
  by_cases e1 : env.existsErr = true
  · simp [e1, List.count_cons]
  by_cases e2 : existsGuid led item.guid = true
  · simp [e1, e2, List.count_cons]
  cases hres : env.evalRes with
  | none => simp [e1, e2, List.count_cons]
  | some res =>
    by_cases e3 : env.saveErr = true
    · simp [e1, e2, e3, List.count_cons]
    by_cases e4 : res.relevant = true
    · by_cases hg : item.guid = g
      · subst hg
        simp [e1, e2, e3, e4, List.count_cons, List.count_nil]
      · simp [e1, e2, e3, e4, hg, List.count_cons, List.count_nil]
    · simp [e1, e2, e3, e4, List.count_cons]

lemma processItems_count_notify_le (led : Ledger) (now : Nat)
    (batch : List (Item × ItemEnv)) (g : Str) :
    ((processItems led now batch).2.count (Event.notify g)) ≤
      ((processItems led now batch).2.count (Event.upsertOk g true)) := by
  induction batch generalizing led with
  | nil => simp [processItems]
  | cons p rest ih =>
    obtain ⟨item, env⟩ := p
    simp only [processItems]
    rw [List.count_append, List.count_append]
    exact Nat.add_le_add (processItem_count_notify_le led now item env g)
      (ih (processItem led now item env).1)

lemma pollOnce_count_notify_le (led : Ledger) (now : Nat)
    (fetch : Option (List (Item × ItemEnv))) (g : Str) :
    ((pollOnce led now fetch).2.count (Event.notify g)) ≤
      ((pollOnce led now fetch).2.count (Event.upsertOk g true)) := by
  cases fetch with
  | none => simp [pollOnce]
  | some batch => exact processItems_count_notify_le led now batch g

/-- C2: across any number of cycles the Notifier fires at most once per
successful relevant upsert of an identifier, and a per-item verdict
with `relevant=false` never triggers it. -/
theorem notify_at_most_once (led : Ledger)
    (cycles : List (Nat × Option (List (Item × ItemEnv)))) (g : Str) :
    ((runCycles led cycles).2.count (Event.notify g)) ≤
      ((runCycles led cycles).2.count (Event.upsertOk g true)) ∧
    ∀ (led2 : Ledger) (now : Nat) (item : Item) (env : ItemEnv) (res : Result),
      env.evalRes = some res → res.relevant = false →
      Event.notify item.guid ∉ (processItem led2 now item env).2 := by
  constructor
  · induction cycles generalizing led with
    | nil => simp [runCycles]
    | cons cyc rest ih =>
      simp only [runCycles]
      rw [List.count_append, List.count_append]
      exact Nat.add_le_add (pollOnce_count_notify_le led cyc.1 cyc.2 g)
        (ih (pollOnce led cyc.1 cyc.2).1)
  · intro led2 now item env res hres hrel
    unfold processItem
    by_cases e1 : env.existsErr = true
    · simp [e1]
    by_cases e2 : existsGuid led2 item.guid = true
    · simp [e1, e2]
    by_cases e3 : env.saveErr = true
    · simp [e1, e2, e3, hres]
    · simp [e1, e2, e3, hres, hrel]

/-- C2 witness. -/
theorem notify_at_most_once_witness :
    wEnvIrrelevant.evalRes = some wResIrrelevant ∧
    wResIrrelevant.relevant = false ∧
    Event.notify wItemB.guid ∉ (processItem wLedger 7 wItemB wEnvIrrelevant).2 :=
  ⟨rfl, rfl,
    (notify_at_most_once wLedger [] (("b").data)).2 wLedger 7 wItemB wEnvIrrelevant
      wResIrrelevant rfl rfl⟩

/-- C3: when the upsert for an item fails, the Notifier is not invoked
for that item in that cycle. -/
theorem upsert_failure_blocks_notify (led : Ledger) (now : Nat) (item : Item)
    (env : ItemEnv) (h : env.saveErr = true) :
    Event.notify item.guid ∉ (processItem led now item env).2 := by
  unfold processItem
  by_cases e1 : env.existsErr = true
  · simp [e1]
  by_cases e2 : existsGuid led item.guid = true
  · simp [e1, e2]
  cases hres : env.evalRes with
  | none => simp [e1, e2, hres]
  | some res => simp [e1, e2, hres, h]

/-- C3 witness. -/
theorem upsert_failure_blocks_notify_witness :
    wEnvSaveFail.saveErr = true ∧
    Event.notify wItemB.guid ∉ (processItem wLedger 7 wItemB wEnvSaveFail).2 :=
  ⟨rfl, upsert_failure_blocks_notify wLedger 7 wItemB wEnvSaveFail rfl⟩

lemma processItems_append (led : Ledger) (now : Nat) (xs ys : List (Item × ItemEnv)) :
    processItems led now (xs ++ ys) =
      ((processItems (processItems led now xs).1 now ys).1,
       (processItems led now xs).2 ++ (processItems (processItems led now xs).1 now ys).2) := by
  induction xs generalizing led with
  | nil => simp [processItems]
  | cons p rest ih =>
    obtain ⟨item, env⟩ := p
    show processItems led now ((item, env) :: (rest ++ ys)) = _
    simp only [processItems, ih (processItem led now item env).1, List.append_assoc]

/-- C4: a batch item whose existence check, classification, or
persistence fails contributes only its own truncated trace; every
sibling is processed exactly as it would be without the failing item,
and the resulting ledger is the same. -/
theorem failed_item_isolated (led : Ledger) (now : Nat)
    (xs ys : List (Item × ItemEnv)) (k : Item × ItemEnv) (h : itemFailed k.2) :
    (processItems led now (xs ++ k :: ys)).1 = (processItems led now (xs ++ ys)).1 ∧
    (processItems led now (xs ++ k :: ys)).2 =
      (processItems led now xs).2 ++
      (processItem (processItems led now xs).1 now k.1 k.2).2 ++
      (processItems (processItems led now xs).1 now ys).2 := by
  obtain ⟨ki, ke⟩ := k
  have hfst := processItem_fst_of_failed (processItems led now xs).1 now ki ke h
  rw [processItems_append led now xs ((ki, ke) :: ys), processItems_append led now xs ys]
  constructor
  · show (processItems (processItems led now xs).1 now ((ki, ke) :: ys)).1 = _
    simp only [processItems, hfst]
  · show (processItems led now xs).2 ++
        (processItems (processItems led now xs).1 now ((ki, ke) :: ys)).2 = _
    simp only [processItems, hfst, List.append_assoc]

/-- C4 witness. -/
theorem failed_item_isolated_witness :
    itemFailed wEnvEvalFail ∧
    ((processItems wLedger 7 ([] ++ (wItemB, wEnvEvalFail) :: [(wItemA, wEnvOk)])).1 =
      (processItems wLedger 7 ([] ++ [(wItemA, wEnvOk)])).1 ∧
     (processItems wLedger 7 ([] ++ (wItemB, wEnvEvalFail) :: [(wItemA, wEnvOk)])).2 =
      (processItems wLedger 7 []).2 ++
      (processItem (processItems wLedger 7 []).1 7 wItemB wEnvEvalFail).2 ++
      (processItems (processItems wLedger 7 []).1 7 [(wItemA, wEnvOk)]).2) :=
  ⟨by decide,
    failed_item_isolated wLedger 7 [] [(wItemA, wEnvOk)] (wItemB, wEnvEvalFail) (by decide)⟩

/-- C5: a failed fetch ends the cycle with no calls made and the ledger
untouched; the next tick simply runs `pollOnce` again. -/
theorem fetch_failure_no_side_effects (led : Ledger) (now : Nat) :
    pollOnce led now none = (led, []) := rfl

/-- C6: the output normalization strips the formatting fences and
coerces the `null` category, so the fenced `"category": null` response
parses into a structurally valid verdict with an empty category. -/
theorem fenced_null_category_normalizes :
    cleanupResponse fencedNullResponse = cleanedNullResponse ∧
    evaluateParse fencedNullResponse =
      some { relevant := true, category := [], reason := ("policy").data,
             tags := [("X").data] } :=
  ⟨by decide, by decide⟩

/-- C7: the summary handed to the classifier never exceeds 800 code
points, and a summary already within budget is passed through
unchanged. -/
theorem summary_trimmed_to_budget (s : Str) :
    (promptSummary s).length ≤ 800 ∧ (s.length ≤ 800 → promptSummary s = s) := by
  unfold promptSummary trimText
  by_cases h : s.length ≤ 800
  · simp [h]
  · constructor
    · by_cases h2 : (goTrimSpace s).length ≤ 800
      · simp [h, h2]
      · simp only [h, if_false, h2]
        rw [List.length_take]
        exact inf_le_left
    · intro hc
      exact absurd hc h

/-- C7 witness. -/
theorem summary_trimmed_to_budget_witness :
    ((("hi").data : Str).length ≤ 800) ∧
    (promptSummary (("hi").data)).length ≤ 800 ∧
    promptSummary (("hi").data) = ("hi").data :=
  ⟨by decide, (summary_trimmed_to_budget (("hi").data)).1,
    (summary_trimmed_to_budget (("hi").data)).2 (by decide)⟩

lemma recBefore_total (a b : StoredRecord) : recBefore a b ∨ recBefore b a := by
  unfold recBefore
  omega

lemma recBefore_trans (a b c : StoredRecord) (h1 : recBefore a b) (h2 : recBefore b c) :
    recBefore a c := by
  unfold recBefore at h1 h2 ⊢
  omega

lemma mem_insertRec (a x : StoredRecord) (l : List StoredRecord) :
    x ∈ insertRec a l ↔ x = a ∨ x ∈ l := by
  induction l with
  | nil => simp [insertRec]
  | cons b bs ih =>
    unfold insertRec
    by_cases h : recBefore a b
    · simp [h]
    · simp only [h, if_false, List.mem_cons, ih]
      tauto

lemma pairwise_insertRec (a : StoredRecord) (l : List StoredRecord)
    (h : l.Pairwise recBefore) : (insertRec a l).Pairwise recBefore := by
  induction l with
  | nil => simp [insertRec]
  | cons b bs ih =>
    rcases List.pairwise_cons.1 h with ⟨hb, hbs⟩
    unfold insertRec
    by_cases hab : recBefore a b
    · simp only [hab, if_true]
      refine List.pairwise_cons.2 ⟨?_, h⟩
      intro x hx
      rcases List.mem_cons.1 hx with h1 | h1
      · subst h1; exact hab
      · exact recBefore_trans a b x hab (hb x h1)
    · simp only [hab, if_false]
      refine List.pairwise_cons.2 ⟨?_, ih hbs⟩
      intro x hx
      rcases (mem_insertRec a x bs).1 hx with h1 | h1
      · rcases recBefore_total a b with h2 | h2
        · exact absurd h2 hab
        · rw [h1]; exact h2
      · exact hb x h1

lemma pairwise_sortRecs (l : List StoredRecord) : (sortRecs l).Pairwise recBefore := by
  induction l with
  | nil => simp [sortRecs]
  | cons a rest ih => exact pairwise_insertRec a (sortRecs rest) ih

lemma mem_sortRecs (x : StoredRecord) (l : List StoredRecord) :
    x ∈ sortRecs l ↔ x ∈ l := by
  induction l with
  | nil => simp [sortRecs]
  | cons a rest ih => simp [sortRecs, mem_insertRec, ih]

/-- C8: `ListRelevant` returns only relevant rows, at most `limit` of
them, ordered by published time descending with ties broken by more
recent insertion; `GET /items` reports exactly this list with its
count. -/
theorem listRelevant_spec (led : Ledger) (limit : Nat) :
    (∀ r ∈ listRelevant led limit, r.relevant = true) ∧
    (listRelevant led limit).length ≤ limit ∧
    (listRelevant led limit).Pairwise recBefore ∧
    itemsResponse led limit = ((listRelevant led limit).length, listRelevant led limit) := by
  refine ⟨?_, ?_, ?_, rfl⟩
  · intro r hr
    have hmem : r ∈ sortRecs (led.records.filter fun r => r.relevant) :=
      (List.take_sublist _ _).subset hr
    exact (List.mem_filter.1 ((mem_sortRecs r _).1 hmem)).2
  · unfold listRelevant
    rw [List.length_take]
    exact inf_le_left
  · exact List.Pairwise.sublist (List.take_sublist _ _) (pairwise_sortRecs _)

/-- C8 witness. -/
theorem listRelevant_spec_witness :
    wRecordB ∈ listRelevant wLedger2 2 ∧ wRecordB.relevant = true :=
  ⟨by decide, (listRelevant_spec wLedger2 2).1 wRecordB (by decide)⟩

/-- C9: the dedup identifier is the source identifier when non-empty,
else the link, else the title; an entry with all three empty yields no
item from the fetch. -/
theorem pickGUID_fallback :
    (∀ e : RawEntry, e.guid ≠ [] → pickGUID e = e.guid) ∧
    (∀ e : RawEntry, e.guid = [] → e.link ≠ [] → pickGUID e = e.link) ∧
    (∀ e : RawEntry, e.guid = [] → e.link = [] → pickGUID e = e.title) ∧
    (∀ (now : Int) (xs ys : List RawEntry) (e : RawEntry),
      e.guid = [] → e.link = [] → e.title = [] →
      fetchItems now (xs ++ e :: ys) = fetchItems now (xs ++ ys)) := by
  refine ⟨?_, ?_, ?_, ?_⟩
  · intro e h; simp [pickGUID, h]
  · intro e h1 h2; simp [pickGUID, h1, h2]
  · intro e h1 h2; simp [pickGUID, h1, h2]
  · intro now xs ys e h1 h2 h3
    have hg : pickGUID e = [] := by simp [pickGUID, h1, h2, h3]
    have hc : containsSubstr ([] : Str) newsletterPat = false := by decide
    unfold fetchItems
    rw [List.filterMap_append, List.filterMap_append, List.filterMap_cons]
    simp [hg, h2, hc]

/-- C9 witness. -/
theorem pickGUID_fallback_witness :
    (wEntryLinkOnly.guid = [] ∧ wEntryLinkOnly.link ≠ [] ∧
     pickGUID wEntryLinkOnly = wEntryLinkOnly.link) ∧
    (wEntryEmpty.guid = [] ∧ wEntryEmpty.link = [] ∧ wEntryEmpty.title = [] ∧
     fetchItems 3 ([wEntryNews] ++ wEntryEmpty :: []) = fetchItems 3 ([wEntryNews] ++ [])) :=
  ⟨⟨rfl, by decide, pickGUID_fallback.2.1 wEntryLinkOnly rfl (by decide)⟩,
   ⟨rfl, rfl, rfl, pickGUID_fallback.2.2.2 3 [wEntryNews] [] wEntryEmpty rfl rfl rfl⟩⟩

/-- C10: every fetched item carries the `/newsletter/` marker in its
guid or link, and an entry lacking the marker in both is dropped from
the fetch result (hence never classified, persisted, or notified). -/
theorem fetch_newsletter_only :
    (∀ (now : Int) (entries : List RawEntry) (item : Item),
      item ∈ fetchItems now entries →
      containsSubstr item.guid newsletterPat = true ∨
      containsSubstr item.link newsletterPat = true) ∧
    (∀ (now : Int) (xs ys : List RawEntry) (e : RawEntry),
      containsSubstr (pickGUID e) newsletterPat = false →
      containsSubstr e.link newsletterPat = false →
      fetchItems now (xs ++ e :: ys) = fetchItems now (xs ++ ys)) := by
  constructor
  · intro now entries item hmem
    rw [fetchItems, List.mem_filterMap] at hmem
    obtain ⟨entry, _, hf⟩ := hmem
    by_cases hc : (!containsSubstr (pickGUID entry) newsletterPat &&
        !containsSubstr entry.link newsletterPat) = true
    · simp only [hc, if_true] at hf
      exact absurd hf (by simp)
    · have hcf : (!containsSubstr (pickGUID entry) newsletterPat &&
          !containsSubstr entry.link newsletterPat) = false := by
        revert hc
        cases (!containsSubstr (pickGUID entry) newsletterPat &&
          !containsSubstr entry.link newsletterPat) <;> simp
      have hcond : containsSubstr (pickGUID entry) newsletterPat = true ∨
          containsSubstr entry.link newsletterPat = true := by
        cases hA : containsSubstr (pickGUID entry) newsletterPat
        · cases hB : containsSubstr entry.link newsletterPat
          · rw [hA, hB] at hcf; simp at hcf
          · exact Or.inr rfl
        · exact Or.inl rfl
      simp only [hcf, Bool.false_eq_true, if_false, Option.some.injEq] at hf
      subst hf
      exact hcond
  · intro now xs ys e h1 h2
    unfold fetchItems
    rw [List.filterMap_append, List.filterMap_append, List.filterMap_cons]
    simp [h1, h2]

/-- C10 witness. -/
theorem fetch_newsletter_only_witness :
    (wItemNews ∈ fetchItems 9 [wEntryNews, wEntryOther] ∧
     (containsSubstr wItemNews.guid newsletterPat = true ∨
      containsSubstr wItemNews.link newsletterPat = true)) ∧
    (containsSubstr (pickGUID wEntryOther) newsletterPat = false ∧
     containsSubstr wEntryOther.link newsletterPat = false ∧
     fetchItems 9 ([] ++ wEntryOther :: [wEntryNews]) = fetchItems 9 ([] ++ [wEntryNews])) :=
  ⟨⟨by decide, fetch_newsletter_only.1 9 [wEntryNews, wEntryOther] wItemNews (by decide)⟩,
   ⟨by decide, by decide,
     fetch_newsletter_only.2 9 [] [wEntryNews] wEntryOther (by decide) (by decide)⟩⟩

end AiWeb3News
